import Mathlib

/-!
Verification of the Article/Author/Region CRUD backend.

The data model is embedded from `src/techtest/articles/models.py`
(Article: title, content with blank default, many-to-many regions,
optional author foreign key with cascade delete).  The request handlers
and the nested reconciliation logic are not part of the provided source
tree (only their tests are), so they are modelled from the spec, as
noted on each definition.
-/

namespace Techtest

/-- A Region row: `{id, code, name}` (from `regions.Region`, referenced by
`articles/models.py`; fields observed in `articles/tests.py`). -/
structure Region where
  id : Nat
  code : String
  name : String
  deriving Repr, DecidableEq

/-- An Author row: `{id, first_name, last_name}` (from `authors.Author`,
referenced by `articles/models.py`; fields observed in the tests). -/
structure Author where
  id : Nat
  first_name : String
  last_name : String
  deriving Repr, DecidableEq

/-- An Article row, from `articles/models.py`: `title` (required string),
`content` (text, blank allowed, defaults to the empty string), and an
optional `author` foreign key stored here as the author's id.  The
many-to-many `regions` relation lives in the join table of the store. -/
structure Article where
  id : Nat
  title : String
  content : String
  author : Option Nat
  deriving Repr, DecidableEq

/-- The relational store: the three tables, the Article–Region join rows
in attachment order, and the next fresh id for each table. -/
structure Store where
  articles : List Article
  authors : List Author
  regions : List Region
  joins : List (Nat × Nat)
  nextArticleId : Nat
  nextAuthorId : Nat
  nextRegionId : Nat
  deriving Repr, DecidableEq

/-- A region descriptor in a payload: either `{id}` referencing an
existing Region, or `{code, name}` asking for a fresh Region row. -/
inductive RegionDesc where
  | byId (id : Nat)
  | byFields (code name : String)
  deriving Repr, DecidableEq

/-- An Article request payload.  `content` is optional (absent means the
model default).  `author` is tri-state, per the spec's absent / null /
`{id}` distinction: `none` = key absent, `some none` = key present with
null, `some (some i)` = key present with `{id: i}`.  `regions` is `none`
when the key is absent, otherwise the descriptor list. -/
structure ArticlePayload where
  title : String
  content : Option String
  author : Option (Option Nat)
  regions : Option (List RegionDesc)
  deriving Repr, DecidableEq

/-- An Author request payload (plain CRUD, two string fields). -/
structure AuthorPayload where
  first_name : String
  last_name : String
  deriving Repr, DecidableEq

/-- Error taxonomy from the spec: NotFound (404-equivalent),
ValidationError (400-equivalent), IntegrityReference (a payload id
referencing a non-existent row). -/
inductive ApiError where
  | notFound
  | validation
  | integrity
  deriving Repr, DecidableEq

/-- HTTP status equivalent of each error. -/
def ApiError.status : ApiError → Nat
  | .notFound => 404
  | .validation => 400
  | .integrity => 400

def findArticle (s : Store) (aid : Nat) : Option Article :=
  s.articles.find? (fun a => a.id == aid)

def findAuthor (s : Store) (uid : Nat) : Option Author :=
  s.authors.find? (fun u => u.id == uid)

def findRegion (rs : List Region) (rid : Nat) : Option Region :=
  rs.find? (fun r => r.id == rid)

/-- The region ids attached to an Article, in join-row attachment order. -/
def articleRegionIds (s : Store) (aid : Nat) : List Nat :=
  (s.joins.filter (fun j => j.1 == aid)).map (fun j => j.2)

/-- The serialized form of an Article aggregate:
`{id, title, content, author: object | null, regions: [...]}`. -/
structure ArticleJson where
  id : Nat
  title : String
  content : String
  author : Option Author
  regions : List Region
  deriving Repr, DecidableEq

/-- Modelled from the spec: the Region Resolver (§4.1).  Each descriptor
is either `{id}` — must reference an existing Region; a non-existent id
silently produces no matching row — or `{code, name}`, which always
creates a new Region row, even if a Region with the same code and name
already exists (no deduplication).  Returns the updated region table,
the next fresh region id, and the resolved region ids in payload order. -/
def resolveRegions (rs : List Region) (next : Nat) :
    List RegionDesc → List Region × Nat × List Nat
  | [] => (rs, next, [])
  | .byId rid :: ds =>
    let res := resolveRegions rs next ds
    if (findRegion rs rid).isSome then
      (res.1, res.2.1, rid :: res.2.2)
    else
      res
  | .byFields c n :: ds =>
    let res := resolveRegions (rs ++ [⟨next, c, n⟩]) (next + 1) ds
    (res.1, res.2.1, next :: res.2.2)

/-- Modelled from the spec: full-replace set reconciliation of an
Article's region associations (§4.1, §9).  Join rows of the article
whose region is not in the new set are detached; region ids not already
attached are appended in resolved order; join rows of other articles are
untouched. -/
def setRegions (s : Store) (aid : Nat) (ids : List Nat) : Store :=
  let oldIds := articleRegionIds s aid
  let kept := s.joins.filter (fun j => j.1 != aid || ids.contains j.2)
  let added := ids.filter (fun r => !oldIds.contains r)
  { s with joins := kept ++ added.map (fun r => (aid, r)) }

/-- Modelled from the spec: the Author Resolver (§4.2).  Absent key
leaves the current reference unchanged; null clears it; `{id}` must
resolve to an existing Author and sets the reference. -/
def resolveAuthor (s : Store) (field : Option (Option Nat))
    (current : Option Nat) : Except ApiError (Option Nat) :=
  match field with
  | none => .ok current
  | some none => .ok none
  | some (some uid) =>
    if (findAuthor s uid).isSome then .ok (some uid) else .error .integrity

/-- Modelled from the spec: serialization of an Article aggregate with
nested Author (object or null) and nested Regions listed in join-row
attachment order (§3, §6). -/
def serializeArticle (s : Store) (a : Article) : ArticleJson :=
  { id := a.id
  , title := a.title
  , content := a.content
  , author := a.author.bind (fun uid => findAuthor s uid)
  , regions := (articleRegionIds s a.id).filterMap (fun rid => findRegion s.regions rid) }

/-- Replace the article row with the given id. -/
def updateArticleRow (l : List Article) (aid : Nat) (a' : Article) : List Article :=
  l.map (fun b => if b.id == aid then a' else b)

/-- Modelled from the spec: PUT on `/articles/{id}` (§4.3 Update).
Unknown id signals NotFound.  Author resolution follows the three-way
rule; region resolution, when the `regions` key is present, fully
replaces the prior association set; when the key is absent the
associations are left as they are (the behaviour the test
`test_updates_article_and_author` exercises).  Returns the new store,
status 200, and the serialized aggregate. -/
def updateArticle (s : Store) (aid : Nat) (p : ArticlePayload) :
    Except ApiError (Store × Nat × ArticleJson) :=
  match findArticle s aid with
  | none => .error .notFound
  | some a =>
    match resolveAuthor s p.author a.author with
    | .error e => .error e
    | .ok newAuthor =>
      let a' : Article :=
        { id := a.id, title := p.title
        , content := p.content.getD a.content, author := newAuthor }
      let s₁ : Store := { s with articles := updateArticleRow s.articles aid a' }
      let s₂ : Store :=
        match p.regions with
        | none => s₁
        | some descs =>
          let res := resolveRegions s₁.regions s₁.nextRegionId descs
          setRegions { s₁ with regions := res.1, nextRegionId := res.2.1 } aid res.2.2
      .ok (s₂, 200, serializeArticle s₂ a')

/-- Modelled from the spec: POST on `/articles` (§4.3 Create).  Builds
the row from `title`/`content` (content defaults to the empty string),
resolves the author (absent or null both give no reference on create),
resolves the regions (absent key means no associations), and returns
status 201 with the serialized aggregate. -/
def createArticle (s : Store) (p : ArticlePayload) :
    Except ApiError (Store × Nat × ArticleJson) :=
  let aid := s.nextArticleId
  match resolveAuthor s p.author none with
  | .error e => .error e
  | .ok newAuthor =>
    let a : Article :=
      { id := aid, title := p.title, content := p.content.getD "", author := newAuthor }
    let s₁ : Store := { s with articles := s.articles ++ [a], nextArticleId := aid + 1 }
    let s₂ : Store :=
      match p.regions with
      | none => s₁
      | some descs =>
        let res := resolveRegions s₁.regions s₁.nextRegionId descs
        setRegions { s₁ with regions := res.1, nextRegionId := res.2.1 } aid res.2.2
    .ok (s₂, 201, serializeArticle s₂ a)

/-- Modelled from the spec: GET on `/articles/{id}` (§4.3 Read).
Unknown id signals NotFound, otherwise status 200 with the aggregate. -/
def getArticle (s : Store) (aid : Nat) : Except ApiError (Nat × ArticleJson) :=
  match findArticle s aid with
  | none => .error .notFound
  | some a => .ok (200, serializeArticle s a)

/-- Modelled from the spec: DELETE on `/articles/{id}` (§4.3 Delete).
Removes the Article row and its join rows; Author and Region rows are
untouched; returns status 200. -/
def deleteArticle (s : Store) (aid : Nat) : Except ApiError (Store × Nat) :=
  match findArticle s aid with
  | none => .error .notFound
  | some _ =>
    .ok ({ s with
             articles := s.articles.filter (fun a => a.id != aid),
             joins := s.joins.filter (fun j => j.1 != aid) }, 200)

/-- Modelled from `articles/models.py` (`on_delete=models.CASCADE` on
`Article.author`) and the spec (§3): deleting an Author also deletes
every Article row referencing it, together with those articles' join
rows; returns status 200.  Unknown id signals NotFound. -/
def deleteAuthor (s : Store) (uid : Nat) : Except ApiError (Store × Nat) :=
  match findAuthor s uid with
  | none => .error .notFound
  | some _ =>
    let survivors := s.articles.filter (fun a => a.author != some uid)
    .ok ({ s with
             authors := s.authors.filter (fun u => u.id != uid),
             articles := survivors,
             joins := s.joins.filter (fun j => survivors.any (fun a => a.id == j.1)) }, 200)

/-- Modelled from the spec: GET on `/authors/{id}` (§4.4). -/
def getAuthor (s : Store) (uid : Nat) : Except ApiError (Nat × Author) :=
  match findAuthor s uid with
  | none => .error .notFound
  | some u => .ok (200, u)

/-- Modelled from the spec: PUT on `/authors/{id}` (§4.4): full replace
of the two string fields.  Unknown id signals NotFound. -/
def updateAuthor (s : Store) (uid : Nat) (p : AuthorPayload) :
    Except ApiError (Store × Nat × Author) :=
  match findAuthor s uid with
  | none => .error .notFound
  | some _ =>
    let u' : Author := { id := uid, first_name := p.first_name, last_name := p.last_name }
    .ok ({ s with authors := s.authors.map (fun u => if u.id == uid then u' else u) }, 200, u')

/-- A concrete store mirroring the tests' setUp: one article (with the
author set and two regions attached), one author, two regions. -/
def sampleStore : Store :=
  { articles := [⟨1, "Fake Article 1", "", some 1⟩]
  , authors := [⟨1, "foo", "bar"⟩]
  , regions := [⟨1, "AL", "Albania"⟩, ⟨2, "UK", "United Kingdom"⟩]
  , joins := [(1, 1), (1, 2)]
  , nextArticleId := 2
  , nextAuthorId := 2
  , nextRegionId := 3 }

/-- The article row written by a PUT: same id, payload title, payload
content when present (otherwise the previous content), and the author
reference produced by the Author Resolver. -/
def updatedRow (a : Article) (p : ArticlePayload) (na : Option Nat) : Article :=
  ⟨a.id, p.title, p.content.getD a.content, na⟩

/-- The store after a successful PUT whose payload omits the `regions`
key: only the article row changes. -/
def updatedStoreNoRegions (s : Store) (aid : Nat) (a : Article) (p : ArticlePayload)
    (na : Option Nat) : Store :=
  { s with articles := updateArticleRow s.articles aid (updatedRow a p na) }

/-- The store after a successful PUT whose payload carries a `regions`
list: the article row changes, the Region Resolver extends the region
table, and the association set is reconciled by full replacement. -/
def updatedStoreRegions (s : Store) (aid : Nat) (a : Article) (p : ArticlePayload)
    (na : Option Nat) (descs : List RegionDesc) : Store :=
  setRegions
    { updatedStoreNoRegions s aid a p na with
        regions := (resolveRegions s.regions s.nextRegionId descs).1,
        nextRegionId := (resolveRegions s.regions s.nextRegionId descs).2.1 }
    aid (resolveRegions s.regions s.nextRegionId descs).2.2

/-- The article row written by a POST: fresh id, payload title, payload
content when present (otherwise the model's blank default), and the
resolved author reference. -/
def createdRow (s : Store) (q : ArticlePayload) (nb : Option Nat) : Article :=
  ⟨s.nextArticleId, q.title, q.content.getD "", nb⟩

/-- The store after a POST, before region reconciliation. -/
def createdStoreBase (s : Store) (q : ArticlePayload) (nb : Option Nat) : Store :=
  { s with
      articles := s.articles ++ [createdRow s q nb],
      nextArticleId := s.nextArticleId + 1 }

/-- The store after a successful POST whose payload carries a `regions`
list. -/
def createdStoreRegions (s : Store) (q : ArticlePayload) (nb : Option Nat)
    (descs : List RegionDesc) : Store :=
  setRegions
    { createdStoreBase s q nb with
        regions := (resolveRegions s.regions s.nextRegionId descs).1,
        nextRegionId := (resolveRegions s.regions s.nextRegionId descs).2.1 }
    s.nextArticleId (resolveRegions s.regions s.nextRegionId descs).2.2

/-- A store with one article that has no attached regions, and one
unattached Region row. -/
def unattachedStore : Store :=
  { articles := [⟨1, "T", "", none⟩]
  , authors := []
  , regions := [⟨1, "AL", "Albania"⟩]
  , joins := []
  , nextArticleId := 2
  , nextAuthorId := 1
  , nextRegionId := 2 }

/-- An update payload mixing a `{code, name}` descriptor (listed first)
with an `{id}` descriptor referencing Region 1 (listed second). -/
def mixedPayload : ArticlePayload :=
  ⟨"T2", some "c", none, some [.byFields "US" "United States", .byId 1]⟩

/-- The store visible after an operation: the one carried by a success,
or the untouched input store when the handler signalled an error. -/
def storeAfter (s : Store) : Except ApiError (Store × α) → Store
  | .ok (s', _) => s'
  | .error _ => s

end Techtest


namespace Techtest

/-! ### Helper lemmas -/

theorem find?_beq_id {α : Type} {l : List α} {f : α → Nat} {k : Nat} {a : α}
    (h : l.find? (fun x => f x == k) = some a) : f a = k := by
  have := List.find?_some h
  simpa using this

theorem find?_append_left {α : Type} {l₁ l₂ : List α} {p : α → Bool} {a : α}
    (h : l₁.find? p = some a) : (l₁ ++ l₂).find? p = some a := by
  induction l₁ with
  | nil => simp at h
  | cons b l ih =>
    by_cases hb : p b
    · rw [List.find?_cons_of_pos _ hb] at h
      simpa [List.find?_cons_of_pos _ hb] using h
    · rw [List.find?_cons_of_neg _ hb] at h
      rw [List.cons_append, List.find?_cons_of_neg _ hb]
      exact ih h

theorem find?_append_isSome_left {α : Type} {l₁ l₂ : List α} {p : α → Bool}
    (h : (l₁.find? p).isSome = true) : ((l₁ ++ l₂).find? p).isSome = true := by
  obtain ⟨a, ha⟩ := Option.isSome_iff_exists.mp h
  rw [find?_append_left ha]
  rfl

theorem find?_append_isSome_right {α : Type} {l₁ l₂ : List α} {p : α → Bool}
    (h : (l₂.find? p).isSome = true) : ((l₁ ++ l₂).find? p).isSome = true := by
  induction l₁ with
  | nil => simpa using h
  | cons b l ih =>
    by_cases hb : p b
    · rw [List.cons_append, List.find?_cons_of_pos _ hb]
      rfl
    · rw [List.cons_append, List.find?_cons_of_neg _ hb]
      exact ih

theorem findArticle_updateArticleRow {l : List Article} {aid : Nat} {a : Article}
    (a' : Article) (h : l.find? (fun b => b.id == aid) = some a) (h' : a'.id = aid) :
    (updateArticleRow l aid a').find? (fun b => b.id == aid) = some a' := by
  induction l with
  | nil => simp at h
  | cons b l ih =>
    by_cases hb : ((b.id == aid) = true)
    · simp only [updateArticleRow, List.map_cons, if_pos hb]
      exact List.find?_cons_of_pos _ (by simp [h'])
    · rw [List.find?_cons_of_neg (p := fun b : Article => b.id == aid) _ hb] at h
      simp only [updateArticleRow, List.map_cons, if_neg hb]
      rw [List.find?_cons_of_neg (p := fun b : Article => b.id == aid) _ hb]
      exact ih h

theorem contains_iff_mem {l : List Nat} {a : Nat} : l.contains a = true ↔ a ∈ l := by
  simp [List.contains]

/-- `resolveRegions` only appends to the region table. -/
theorem resolveRegions_regions_append (rs : List Region) (next : Nat)
    (ds : List RegionDesc) : ∃ ext, (resolveRegions rs next ds).1 = rs ++ ext := by
  induction ds generalizing rs next with
  | nil => exact ⟨[], by simp [resolveRegions]⟩
  | cons d ds ih =>
    cases d with
    | byId rid =>
      obtain ⟨ext, hext⟩ := ih rs next
      by_cases hf : ((findRegion rs rid).isSome = true)
      · exact ⟨ext, by simp [resolveRegions, if_pos hf, hext]⟩
      · exact ⟨ext, by simp [resolveRegions, if_neg hf, hext]⟩
    | byFields c n =>
      obtain ⟨ext, hext⟩ := ih (rs ++ [⟨next, c, n⟩]) (next + 1)
      exact ⟨⟨next, c, n⟩ :: ext, by simp [resolveRegions, hext]⟩

/-- Every id resolved by `resolveRegions` names a row of the resulting
region table. -/
theorem resolveRegions_ids_sound (rs : List Region) (next : Nat)
    (ds : List RegionDesc) :
    ∀ rid ∈ (resolveRegions rs next ds).2.2,
      (findRegion (resolveRegions rs next ds).1 rid).isSome = true := by
  induction ds generalizing rs next with
  | nil => simp [resolveRegions]
  | cons d ds ih =>
    cases d with
    | byId r =>
      intro rid hrid
      by_cases hf : ((findRegion rs r).isSome = true)
      · simp only [resolveRegions, if_pos hf] at hrid ⊢
        rcases List.mem_cons.mp hrid with h | h
        · subst h
          obtain ⟨ext, hext⟩ := resolveRegions_regions_append rs next ds
          rw [hext]
          exact find?_append_isSome_left hf
        · exact ih rs next rid h
      · simp only [resolveRegions, if_neg hf] at hrid ⊢
        exact ih rs next rid hrid
    | byFields c n =>
      intro rid hrid
      simp only [resolveRegions] at hrid ⊢
      rcases List.mem_cons.mp hrid with h | h
      · obtain ⟨ext, hext⟩ := resolveRegions_regions_append (rs ++ [⟨next, c, n⟩]) (next + 1) ds
        rw [h, hext, List.append_assoc]
        apply find?_append_isSome_right
        apply find?_append_isSome_left
        simp [findRegion]
      · exact ih (rs ++ [⟨next, c, n⟩]) (next + 1) rid h

end Techtest

namespace Techtest

theorem kept_map_filter (joins : List (Nat × Nat)) (aid : Nat) (ids : List Nat) :
    ((joins.filter (fun j => j.1 != aid || ids.contains j.2)).filter
        (fun j => j.1 == aid)).map (fun j => j.2) =
      ((joins.filter (fun j => j.1 == aid)).map (fun j => j.2)).filter
        (fun r => ids.contains r) := by
  rw [List.filter_filter, List.filter_map, List.filter_filter]
  congr 1
  apply List.filter_congr
  intro j _
  by_cases hj : ((j.1 == aid) = true)
  · have h1 : (j.1 != aid) = false := by simp [bne, hj]
    simp [hj, h1]
  · have h1 : (j.1 == aid) = false := by simpa using hj
    simp [h1]

theorem added_map_filter (aid : Nat) (l : List Nat) :
    ((l.map (fun r => (aid, r))).filter (fun j => j.1 == aid)).map (fun j => j.2) = l := by
  induction l with
  | nil => rfl
  | cons r l ih => simp [List.filter_cons, ih]

/-- The associations of an article after `setRegions`: the previously
attached ids that survive, in attachment order, followed by the genuinely
new ids in resolved order. -/
theorem articleRegionIds_setRegions (s : Store) (aid : Nat) (ids : List Nat) :
    articleRegionIds (setRegions s aid ids) aid =
      (articleRegionIds s aid).filter (fun r => ids.contains r) ++
        ids.filter (fun r => !(articleRegionIds s aid).contains r) := by
  unfold setRegions articleRegionIds
  rw [List.filter_append, List.map_append, kept_map_filter]
  congr 1
  have h := added_map_filter aid (ids.filter
    (fun r => !((s.joins.filter (fun j => j.1 == aid)).map (fun j => j.2)).contains r))
  exact h

/-- Joins of other articles are untouched by `setRegions`. -/
theorem articleRegionIds_setRegions_other (s : Store) (aid bid : Nat) (ids : List Nat)
    (hne : bid ≠ aid) :
    articleRegionIds (setRegions s aid ids) bid = articleRegionIds s bid := by
  unfold setRegions articleRegionIds
  rw [List.filter_append, List.map_append, List.filter_map, List.filter_filter]
  have h1 : List.filter ((fun j : Nat × Nat => j.1 == bid) ∘ fun r => (aid, r))
      (ids.filter (fun r =>
        !((s.joins.filter (fun j => j.1 == aid)).map (fun j => j.2)).contains r)) = [] := by
    rw [List.filter_eq_nil_iff]
    intro r _
    simp only [Function.comp]
    simp
    omega
  rw [h1]
  have h2 : s.joins.filter
      (fun j => j.1 == bid && (j.1 != aid || ids.contains j.2)) =
      s.joins.filter (fun j => j.1 == bid) := by
    apply List.filter_congr
    intro j _
    by_cases hj : ((j.1 == bid) = true)
    · have hb : j.1 = bid := by simpa using hj
      have ha : (j.1 != aid) = true := by simp [bne, hb, hne]
      simp [hj, ha]
    · have hb : (j.1 == bid) = false := by simpa using hj
      simp [hb]
  rw [h2]
  simp

theorem mem_articleRegionIds_setRegions {s : Store} {aid : Nat} {ids : List Nat}
    {rid : Nat} :
    rid ∈ articleRegionIds (setRegions s aid ids) aid ↔ rid ∈ ids := by
  rw [articleRegionIds_setRegions]
  simp only [List.mem_append, List.mem_filter, contains_iff_mem,
    Bool.not_eq_true', Bool.not_eq_true]
  constructor
  · rintro (⟨_, h⟩ | ⟨h, _⟩) <;> exact h
  · intro h
    by_cases ho : rid ∈ articleRegionIds s aid
    · exact Or.inl ⟨ho, h⟩
    · refine Or.inr ⟨h, ?_⟩
      exact (Bool.not_eq_true _).mp (by simpa [contains_iff_mem] using ho)

theorem filterMap_findRegion_ids {rs : List Region} {ids : List Nat}
    (h : ∀ rid ∈ ids, (findRegion rs rid).isSome = true) :
    (ids.filterMap (fun rid => findRegion rs rid)).map (fun r => r.id) = ids := by
  induction ids with
  | nil => rfl
  | cons rid ids ih =>
    obtain ⟨r, hr⟩ := Option.isSome_iff_exists.mp (h rid (List.mem_cons_self _ _))
    have hid : r.id = rid := by
      apply find?_beq_id (f := fun r : Region => r.id)
      simpa [findRegion] using hr
    rw [List.filterMap_cons, hr]
    simp only [List.map_cons, hid]
    rw [ih (fun x hx => h x (List.mem_cons_of_mem _ hx))]

end Techtest

namespace Techtest


/-! ### Claim theorems -/

/-- C4: deleting an existing Author succeeds with status 200, removes
the Author row, deletes every Article row whose author reference points
to it (the cascade declared by `on_delete=models.CASCADE` in
`articles/models.py`), and keeps every Article that does not reference
it. -/
theorem deleteAuthor_cascades (s : Store) (uid : Nat) (u : Author)
    (hu : findAuthor s uid = some u) :
    ∃ s', deleteAuthor s uid = .ok (s', 200) ∧
      findAuthor s' uid = none ∧
      (∀ a ∈ s'.articles, a.author ≠ some uid) ∧
      (∀ a ∈ s.articles, a.author ≠ some uid → a ∈ s'.articles) := by
  unfold deleteAuthor
  rw [hu]
  refine ⟨_, rfl, ?_, ?_, ?_⟩
  · unfold findAuthor
    rw [List.find?_eq_none]
    intro v hv
    have := (List.mem_filter.mp hv).2
    simp only [bne_iff_ne, ne_eq] at this
    simp [this]
  · intro a ha
    have := (List.mem_filter.mp ha).2
    simpa using this
  · intro a ha hne
    exact List.mem_filter.mpr ⟨ha, by simpa using hne⟩

/-- Closed witness for C4 on the sample store. -/
theorem deleteAuthor_cascades_witness :
    ∃ s', deleteAuthor sampleStore 1 = .ok (s', 200) ∧
      findAuthor s' 1 = none ∧
      (∀ a ∈ s'.articles, a.author ≠ some 1) ∧
      (∀ a ∈ sampleStore.articles, a.author ≠ some 1 → a ∈ s'.articles) :=
  deleteAuthor_cascades sampleStore 1 ⟨1, "foo", "bar"⟩ rfl

/-- C5: deleting an existing Article returns status 200, removes the
Article row and every one of its Article–Region join rows (joins of
other articles survive), and leaves the Author and Region tables
unchanged. -/
theorem deleteArticle_frame (s : Store) (aid : Nat) (a : Article)
    (ha : findArticle s aid = some a) :
    ∃ s', deleteArticle s aid = .ok (s', 200) ∧
      findArticle s' aid = none ∧
      s'.articles = s.articles.filter (fun b => b.id != aid) ∧
      s'.joins = s.joins.filter (fun j => j.1 != aid) ∧
      articleRegionIds s' aid = [] ∧
      s'.authors = s.authors ∧
      s'.regions = s.regions := by
  unfold deleteArticle
  rw [ha]
  refine ⟨_, rfl, ?_, rfl, rfl, ?_, rfl, rfl⟩
  · unfold findArticle
    rw [List.find?_eq_none]
    intro b hb
    have := (List.mem_filter.mp hb).2
    simp only [bne_iff_ne, ne_eq] at this
    simp [this]
  · unfold articleRegionIds
    have : (s.joins.filter (fun j => j.1 != aid)).filter (fun j => j.1 == aid) = [] := by
      rw [List.filter_eq_nil_iff]
      intro j hj
      have := (List.mem_filter.mp hj).2
      simp only [bne_iff_ne, ne_eq] at this
      simp [this]
    rw [this]
    rfl

/-- Closed witness for C5 on the sample store. -/
theorem deleteArticle_frame_witness :
    ∃ s', deleteArticle sampleStore 1 = .ok (s', 200) ∧
      findArticle s' 1 = none ∧
      s'.articles = sampleStore.articles.filter (fun b => b.id != 1) ∧
      s'.joins = sampleStore.joins.filter (fun j => j.1 != 1) ∧
      articleRegionIds s' 1 = [] ∧
      s'.authors = sampleStore.authors ∧
      s'.regions = sampleStore.regions :=
  deleteArticle_frame sampleStore 1 ⟨1, "Fake Article 1", "", some 1⟩ rfl

/-- C8: any item-level GET, PUT or DELETE on an Article id or Author id
that is not in the store signals NotFound (whose HTTP equivalent is
404), and the store visible afterwards is exactly the input store: no
row is created, modified or deleted. -/
theorem notFound_is_pure (s : Store) (aid uid : Nat) (p : ArticlePayload)
    (q : AuthorPayload) (ha : findArticle s aid = none)
    (hu : findAuthor s uid = none) :
    getArticle s aid = .error .notFound ∧
    updateArticle s aid p = .error .notFound ∧
    deleteArticle s aid = .error .notFound ∧
    getAuthor s uid = .error .notFound ∧
    updateAuthor s uid q = .error .notFound ∧
    deleteAuthor s uid = .error .notFound ∧
    storeAfter s (updateArticle s aid p) = s ∧
    storeAfter s (deleteArticle s aid) = s ∧
    storeAfter s (updateAuthor s uid q) = s ∧
    storeAfter s (deleteAuthor s uid) = s ∧
    ApiError.notFound.status = 404 := by
  refine ⟨by simp [getArticle, ha], by simp [updateArticle, ha],
    by simp [deleteArticle, ha], by simp [getAuthor, hu],
    by simp [updateAuthor, hu], by simp [deleteAuthor, hu],
    by simp [storeAfter, updateArticle, ha], by simp [storeAfter, deleteArticle, ha],
    by simp [storeAfter, updateAuthor, hu], by simp [storeAfter, deleteAuthor, hu],
    rfl⟩

/-- Closed witness for C8: id 9 names neither an Article nor an Author
of the sample store. -/
theorem notFound_is_pure_witness :
    getArticle sampleStore 9 = .error .notFound ∧
    updateArticle sampleStore 9 ⟨"t", none, none, none⟩ = .error .notFound ∧
    deleteArticle sampleStore 9 = .error .notFound ∧
    getAuthor sampleStore 9 = .error .notFound ∧
    updateAuthor sampleStore 9 ⟨"a", "b"⟩ = .error .notFound ∧
    deleteAuthor sampleStore 9 = .error .notFound ∧
    storeAfter sampleStore (updateArticle sampleStore 9 ⟨"t", none, none, none⟩) = sampleStore ∧
    storeAfter sampleStore (deleteArticle sampleStore 9) = sampleStore ∧
    storeAfter sampleStore (updateAuthor sampleStore 9 ⟨"a", "b"⟩) = sampleStore ∧
    storeAfter sampleStore (deleteAuthor sampleStore 9) = sampleStore ∧
    ApiError.notFound.status = 404 :=
  notFound_is_pure sampleStore 9 9 ⟨"t", none, none, none⟩ ⟨"a", "b"⟩ rfl rfl

end Techtest

namespace Techtest

theorem findAuthor_congr {s s' : Store} (h : s'.authors = s.authors) (uid : Nat) :
    findAuthor s' uid = findAuthor s uid := by
  unfold findAuthor
  rw [h]

/-- Characterization of a successful PUT when the `regions` key is
absent: the article row is replaced, everything else is untouched. -/
theorem updateArticle_ok_noRegions (s : Store) (aid : Nat) (p : ArticlePayload)
    (a : Article) (na : Option Nat) (ha : findArticle s aid = some a)
    (hres : resolveAuthor s p.author a.author = .ok na) (hpr : p.regions = none) :
    updateArticle s aid p =
      .ok (updatedStoreNoRegions s aid a p na, 200,
           serializeArticle (updatedStoreNoRegions s aid a p na) (updatedRow a p na)) := by
  unfold updateArticle updatedStoreNoRegions updatedRow
  simp only [ha, hres, hpr]

/-- Characterization of a successful PUT when the `regions` key is
present: the article row is replaced, the region table is extended by
the resolver, and the association set is reconciled. -/
theorem updateArticle_ok_regions (s : Store) (aid : Nat) (p : ArticlePayload)
    (a : Article) (na : Option Nat) (descs : List RegionDesc)
    (ha : findArticle s aid = some a)
    (hres : resolveAuthor s p.author a.author = .ok na)
    (hpr : p.regions = some descs) :
    updateArticle s aid p =
      .ok (updatedStoreRegions s aid a p na descs, 200,
           serializeArticle (updatedStoreRegions s aid a p na descs)
             (updatedRow a p na)) := by
  unfold updateArticle updatedStoreRegions updatedStoreNoRegions updatedRow
  simp only [ha, hres, hpr]

end Techtest

namespace Techtest

/-- A successful PUT, whatever the `regions` key holds: the response is
built from the updated row, the article table is rewritten and the
author table is untouched. -/
theorem updateArticle_ok_any (s : Store) (aid : Nat) (p : ArticlePayload)
    (a : Article) (na : Option Nat) (ha : findArticle s aid = some a)
    (hres : resolveAuthor s p.author a.author = .ok na) :
    ∃ s', updateArticle s aid p =
        .ok (s', 200, serializeArticle s' (updatedRow a p na)) ∧
      s'.articles = updateArticleRow s.articles aid (updatedRow a p na) ∧
      s'.authors = s.authors := by
  cases hpr : p.regions with
  | none => exact ⟨_, updateArticle_ok_noRegions s aid p a na ha hres hpr, rfl, rfl⟩
  | some descs => exact ⟨_, updateArticle_ok_regions s aid p a na descs ha hres hpr, rfl, rfl⟩

/-- C1: on a PUT of an existing Article the payload's `author` field is
read three ways: key absent leaves the stored Author reference
unchanged, `author: null` clears the reference, and `author: {id}` of an
existing Author sets the reference.  In each case the update succeeds
with status 200 and the serialized aggregate reflects the resulting
reference. -/
theorem updateArticle_author_tristate (s : Store) (aid : Nat) (p : ArticlePayload)
    (a : Article) (ha : findArticle s aid = some a)
    (hcur : ∀ uid, a.author = some uid → (findAuthor s uid).isSome = true) :
    (p.author = none →
      ∃ s' js, updateArticle s aid p = .ok (s', 200, js) ∧
        (∃ a', findArticle s' aid = some a' ∧ a'.author = a.author) ∧
        js.author.map (fun u => u.id) = a.author) ∧
    (p.author = some none →
      ∃ s' js, updateArticle s aid p = .ok (s', 200, js) ∧
        (∃ a', findArticle s' aid = some a' ∧ a'.author = none) ∧
        js.author = none) ∧
    (∀ uid u, p.author = some (some uid) → findAuthor s uid = some u →
      ∃ s' js, updateArticle s aid p = .ok (s', 200, js) ∧
        (∃ a', findArticle s' aid = some a' ∧ a'.author = some uid) ∧
        js.author = some u) := by
  have haid : a.id = aid := find?_beq_id (f := fun b : Article => b.id) ha
  refine ⟨?_, ?_, ?_⟩
  · intro hpa
    have hres : resolveAuthor s p.author a.author = .ok a.author := by
      rw [hpa]
      rfl
    obtain ⟨s', hup, hart, hauth⟩ := updateArticle_ok_any s aid p a a.author ha hres
    refine ⟨s', _, hup, ⟨updatedRow a p a.author, ?_, rfl⟩, ?_⟩
    · show s'.articles.find? (fun b => b.id == aid) = _
      rw [hart]
      exact findArticle_updateArticleRow _ ha (by simpa [updatedRow] using haid)
    · cases hau : a.author with
      | none => simp [serializeArticle, updatedRow, hau]
      | some uid =>
        obtain ⟨u, hu⟩ := Option.isSome_iff_exists.mp (hcur uid hau)
        have hu' : findAuthor s' uid = some u := by rw [findAuthor_congr hauth, hu]
        have hid : u.id = uid := find?_beq_id (f := fun v : Author => v.id) hu
        simp [serializeArticle, updatedRow, hau, hu', hid]
  · intro hpa
    have hres : resolveAuthor s p.author a.author = .ok none := by
      rw [hpa]
      rfl
    obtain ⟨s', hup, hart, _⟩ := updateArticle_ok_any s aid p a none ha hres
    refine ⟨s', _, hup, ⟨updatedRow a p none, ?_, rfl⟩, ?_⟩
    · show s'.articles.find? (fun b => b.id == aid) = _
      rw [hart]
      exact findArticle_updateArticleRow _ ha (by simpa [updatedRow] using haid)
    · simp [serializeArticle, updatedRow]
  · intro uid u hpa hu
    have hres : resolveAuthor s p.author a.author = .ok (some uid) := by
      rw [hpa]
      simp [resolveAuthor, hu]
    obtain ⟨s', hup, hart, hauth⟩ := updateArticle_ok_any s aid p a (some uid) ha hres
    refine ⟨s', _, hup, ⟨updatedRow a p (some uid), ?_, rfl⟩, ?_⟩
    · show s'.articles.find? (fun b => b.id == aid) = _
      rw [hart]
      exact findArticle_updateArticleRow _ ha (by simpa [updatedRow] using haid)
    · have hu' : findAuthor s' uid = some u := by rw [findAuthor_congr hauth, hu]
      simp [serializeArticle, updatedRow, hu']

/-- Closed witness for C1, exercising the `author: {id}` arm on the
sample store. -/
theorem updateArticle_author_tristate_witness :
    ∃ s' js, updateArticle sampleStore 1 ⟨"t", none, some (some 1), none⟩ =
        .ok (s', 200, js) ∧
      (∃ a', findArticle s' 1 = some a' ∧ a'.author = some 1) ∧
      js.author = some ⟨1, "foo", "bar"⟩ :=
  (updateArticle_author_tristate sampleStore 1 ⟨"t", none, some (some 1), none⟩
    ⟨1, "Fake Article 1", "", some 1⟩ rfl
    (fun uid h => by cases h; rfl)).2.2 1 ⟨1, "foo", "bar"⟩ rfl rfl

/-- C9: a PUT whose payload omits the `regions` key entirely leaves the
join table and the region table unchanged — the article keeps exactly
its previous associations — and the serialized response still lists the
previously attached regions. -/
theorem updateArticle_regions_absent (s : Store) (aid : Nat) (p : ArticlePayload)
    (a : Article) (na : Option Nat) (ha : findArticle s aid = some a)
    (hres : resolveAuthor s p.author a.author = .ok na) (hpr : p.regions = none)
    (hjoin : ∀ rid ∈ articleRegionIds s aid, (findRegion s.regions rid).isSome = true) :
    ∃ s' js, updateArticle s aid p = .ok (s', 200, js) ∧
      s'.joins = s.joins ∧ s'.regions = s.regions ∧
      articleRegionIds s' aid = articleRegionIds s aid ∧
      js.regions.map (fun r => r.id) = articleRegionIds s aid := by
  have haid : a.id = aid := find?_beq_id (f := fun b : Article => b.id) ha
  refine ⟨_, _, updateArticle_ok_noRegions s aid p a na ha hres hpr, rfl, rfl, rfl, ?_⟩
  have hids : articleRegionIds (updatedStoreNoRegions s aid a p na)
      (updatedRow a p na).id = articleRegionIds s aid := by
    unfold articleRegionIds updatedStoreNoRegions updatedRow
    rw [haid]
  simp only [serializeArticle, hids]
  exact filterMap_findRegion_ids hjoin

/-- Closed witness for C9 on the sample store. -/
theorem updateArticle_regions_absent_witness :
    ∃ s' js, updateArticle sampleStore 1 ⟨"t", some "c", none, none⟩ =
        .ok (s', 200, js) ∧
      s'.joins = sampleStore.joins ∧ s'.regions = sampleStore.regions ∧
      articleRegionIds s' 1 = articleRegionIds sampleStore 1 ∧
      js.regions.map (fun r => r.id) = articleRegionIds sampleStore 1 :=
  updateArticle_regions_absent sampleStore 1 ⟨"t", some "c", none, none⟩
    ⟨1, "Fake Article 1", "", some 1⟩ (some 1) rfl rfl rfl (by decide)

/-- C6: creating an Article from a payload with no `author` key, no
`regions` key and no `content` succeeds with status 201 and serializes
with `author: null`, `regions: []` and the empty string as content. -/
theorem createArticle_defaults (s : Store) (p : ArticlePayload)
    (hc : p.content = none) (hau : p.author = none) (hpr : p.regions = none)
    (hfresh : ∀ j ∈ s.joins, j.1 ≠ s.nextArticleId) :
    ∃ s' js, createArticle s p = .ok (s', 201, js) ∧
      js.author = none ∧ js.regions = [] ∧ js.content = "" := by
  unfold createArticle
  simp only [hau, hc, hpr, resolveAuthor]
  refine ⟨_, _, rfl, rfl, ?_, rfl⟩
  have hempty : s.joins.filter (fun j => j.1 == s.nextArticleId) = [] := by
    rw [List.filter_eq_nil_iff]
    intro j hj
    simpa using hfresh j hj
  show ((s.joins.filter (fun j => j.1 == s.nextArticleId)).map
    (fun j => j.2)).filterMap _ = []
  rw [hempty]
  rfl

/-- Closed witness for C6 on the sample store. -/
theorem createArticle_defaults_witness :
    ∃ s' js, createArticle sampleStore ⟨"A", none, none, none⟩ = .ok (s', 201, js) ∧
      js.author = none ∧ js.regions = [] ∧ js.content = "" :=
  createArticle_defaults sampleStore ⟨"A", none, none, none⟩ rfl rfl rfl (by decide)

end Techtest

namespace Techtest

/-- Characterization of a POST whose payload carries a `regions` list. -/
theorem createArticle_ok_regions (s : Store) (q : ArticlePayload) (nb : Option Nat)
    (descs : List RegionDesc) (hres : resolveAuthor s q.author none = .ok nb)
    (hqr : q.regions = some descs) :
    createArticle s q =
      .ok (createdStoreRegions s q nb descs, 201,
           serializeArticle (createdStoreRegions s q nb descs) (createdRow s q nb)) := by
  unfold createArticle createdStoreRegions createdStoreBase createdRow
  simp only [hres, hqr]

theorem filter_eq_of_count_one {l : List Nat} {a : Nat} (h : l.count a = 1) :
    l.filter (fun x => x == a) = [a] := by
  induction l with
  | nil => simp at h
  | cons b l ih =>
    by_cases hb : b = a
    · subst hb
      rw [List.count_cons_self] at h
      have hz : l.count b = 0 := by omega
      have hf : l.filter (fun x => x == b) = [] := by
        rw [List.filter_eq_nil_iff]
        intro x hx
        have hnot := List.count_eq_zero.mp hz
        simp only [beq_iff_eq]
        intro hxb
        exact hnot (hxb ▸ hx)
      simp [List.filter_cons, hf]
    · have : (b == a) = false := by simp [hb]
      rw [List.count_cons_of_ne (by omega)] at h
      simp [List.filter_cons, this, ih h]

theorem articleRegionIds_setRegions_nil (s : Store) (aid : Nat) :
    articleRegionIds (setRegions s aid []) aid = [] := by
  rw [articleRegionIds_setRegions]
  simp

/-- Attaching exactly one fresh id (attached nowhere before) replaces
the association list with that singleton. -/
theorem articleRegionIds_setRegions_fresh (s : Store) (aid rid : Nat)
    (h : ∀ x ∈ articleRegionIds s aid, x ≠ rid) :
    articleRegionIds (setRegions s aid [rid]) aid = [rid] := by
  rw [articleRegionIds_setRegions]
  have h1 : (articleRegionIds s aid).filter (fun r => [rid].contains r) = [] := by
    rw [List.filter_eq_nil_iff]
    intro x hx
    simp [h x hx]
  have h2 : rid ∉ articleRegionIds s aid := fun hx => (h rid hx) rfl
  rw [h1]
  simp [contains_iff_mem, h2]

/-- The serialized region-id list of an article after `setRegions`:
surviving old attachments first, in attachment order, then the new
ids. -/
theorem serialize_setRegions_order (X : Store) (aid : Nat) (ids : List Nat)
    (A : Article) (hAid : A.id = aid)
    (hfind : ∀ rid ∈ (articleRegionIds X aid).filter (fun r => ids.contains r) ++
        ids.filter (fun r => !(articleRegionIds X aid).contains r),
      (findRegion (setRegions X aid ids).regions rid).isSome = true) :
    (serializeArticle (setRegions X aid ids) A).regions.map (fun r => r.id) =
      (articleRegionIds X aid).filter (fun r => ids.contains r) ++
        ids.filter (fun r => !(articleRegionIds X aid).contains r) := by
  simp only [serializeArticle, hAid, articleRegionIds_setRegions]
  exact filterMap_findRegion_ids hfind

/-- C2: a PUT whose payload carries a `regions` key replaces the
article's association set with exactly the set the Region Resolver
produces from the payload list; detached Region rows survive in the
region table, and `regions: []` leaves zero associations. -/
theorem updateArticle_regions_replace (s : Store) (aid : Nat) (p : ArticlePayload)
    (a : Article) (na : Option Nat) (descs : List RegionDesc)
    (ha : findArticle s aid = some a)
    (hres : resolveAuthor s p.author a.author = .ok na)
    (hpr : p.regions = some descs) :
    ∃ s' js, updateArticle s aid p = .ok (s', 200, js) ∧
      (∀ rid, rid ∈ articleRegionIds s' aid ↔
        rid ∈ (resolveRegions s.regions s.nextRegionId descs).2.2) ∧
      (∀ r ∈ s.regions, r ∈ s'.regions) ∧
      (descs = [] → articleRegionIds s' aid = []) := by
  refine ⟨_, _, updateArticle_ok_regions s aid p a na descs ha hres hpr, ?_, ?_, ?_⟩
  · intro rid
    exact mem_articleRegionIds_setRegions
  · intro r hr
    obtain ⟨ext, hext⟩ := resolveRegions_regions_append s.regions s.nextRegionId descs
    show r ∈ (resolveRegions s.regions s.nextRegionId descs).1
    rw [hext]
    exact List.mem_append_left _ hr
  · intro hnil
    subst hnil
    have hids : (resolveRegions s.regions s.nextRegionId ([] : List RegionDesc)).2.2
        = [] := rfl
    unfold updatedStoreRegions
    rw [hids, articleRegionIds_setRegions_nil]

/-- Closed witness for C2: `regions: []` on the sample store. -/
theorem updateArticle_regions_replace_witness :
    ∃ s' js, updateArticle sampleStore 1 ⟨"t", some "c", none, some []⟩ =
        .ok (s', 200, js) ∧
      (∀ rid, rid ∈ articleRegionIds s' 1 ↔
        rid ∈ (resolveRegions sampleStore.regions sampleStore.nextRegionId []).2.2) ∧
      (∀ r ∈ sampleStore.regions, r ∈ s'.regions) ∧
      (([] : List RegionDesc) = [] → articleRegionIds s' 1 = []) :=
  updateArticle_regions_replace sampleStore 1 ⟨"t", some "c", none, some []⟩
    ⟨1, "Fake Article 1", "", some 1⟩ (some 1) [] rfl rfl rfl

end Techtest

namespace Techtest

/-- C3: a `{code, name}` region descriptor always creates a brand-new
Region row and attaches it — even when a Region with identical code and
name already exists in the store — on both Article create and Article
update; no find-by-fields lookup is performed. -/
theorem region_descriptor_no_dedup (s : Store) (aid : Nat) (p q : ArticlePayload)
    (a : Article) (na nb : Option Nat) (c n : String)
    (ha : findArticle s aid = some a)
    (hres : resolveAuthor s p.author a.author = .ok na)
    (hpr : p.regions = some [RegionDesc.byFields c n])
    (hresq : resolveAuthor s q.author none = .ok nb)
    (hqr : q.regions = some [RegionDesc.byFields c n])
    (hdup : ∃ r ∈ s.regions, r.code = c ∧ r.name = n)
    (hfreshr : ∀ j ∈ s.joins, j.2 ≠ s.nextRegionId)
    (hfresha : ∀ j ∈ s.joins, j.1 ≠ s.nextArticleId) :
    (∃ s' js, updateArticle s aid p = .ok (s', 200, js) ∧
      s'.regions = s.regions ++ [⟨s.nextRegionId, c, n⟩] ∧
      articleRegionIds s' aid = [s.nextRegionId]) ∧
    (∃ s' js, createArticle s q = .ok (s', 201, js) ∧
      s'.regions = s.regions ++ [⟨s.nextRegionId, c, n⟩] ∧
      articleRegionIds s' s.nextArticleId = [s.nextRegionId]) := by
  have hids : (resolveRegions s.regions s.nextRegionId [RegionDesc.byFields c n]).2.2
      = [s.nextRegionId] := rfl
  constructor
  · refine ⟨_, _, updateArticle_ok_regions s aid p a na [RegionDesc.byFields c n]
      ha hres hpr, rfl, ?_⟩
    unfold updatedStoreRegions
    rw [hids]
    apply articleRegionIds_setRegions_fresh
    intro x hx
    obtain ⟨j, hj, rfl⟩ := List.mem_map.mp hx
    exact hfreshr j (List.mem_filter.mp hj).1
  · refine ⟨_, _, createArticle_ok_regions s q nb [RegionDesc.byFields c n]
      hresq hqr, rfl, ?_⟩
    unfold createdStoreRegions
    rw [hids]
    apply articleRegionIds_setRegions_fresh
    intro x hx
    obtain ⟨j, hj, rfl⟩ := List.mem_map.mp hx
    have hmem := (List.mem_filter.mp hj).1
    have hbeq := (List.mem_filter.mp hj).2
    exact absurd (by simpa using hbeq) (hfresha j hmem)

/-- Closed witness for C3: the payload's `{code: AL, name: Albania}`
duplicates an existing Region of the sample store. -/
theorem region_descriptor_no_dedup_witness :
    (∃ s' js, updateArticle sampleStore 1
        ⟨"t", some "c", none, some [RegionDesc.byFields "AL" "Albania"]⟩ =
        .ok (s', 200, js) ∧
      s'.regions = sampleStore.regions ++ [⟨sampleStore.nextRegionId, "AL", "Albania"⟩] ∧
      articleRegionIds s' 1 = [sampleStore.nextRegionId]) ∧
    (∃ s' js, createArticle sampleStore
        ⟨"u", none, none, some [RegionDesc.byFields "AL" "Albania"]⟩ =
        .ok (s', 201, js) ∧
      s'.regions = sampleStore.regions ++ [⟨sampleStore.nextRegionId, "AL", "Albania"⟩] ∧
      articleRegionIds s' sampleStore.nextArticleId = [sampleStore.nextRegionId]) :=
  region_descriptor_no_dedup sampleStore 1
    ⟨"t", some "c", none, some [RegionDesc.byFields "AL" "Albania"]⟩
    ⟨"u", none, none, some [RegionDesc.byFields "AL" "Albania"]⟩
    ⟨1, "Fake Article 1", "", some 1⟩ (some 1) none "AL" "Albania"
    rfl rfl rfl rfl rfl
    ⟨⟨1, "AL", "Albania"⟩, List.mem_cons_self _ _, rfl, rfl⟩
    (by decide) (by decide)

/-- C7: the serialized `regions` list follows join-row attachment
order: previously attached regions that survive the update are listed
first, in their original attachment order, and newly attached regions
follow in resolution order — regardless of where their descriptors sat
in the payload. -/
theorem updateArticle_regions_attachment_order (s : Store) (aid : Nat)
    (p : ArticlePayload) (a : Article) (na : Option Nat) (descs : List RegionDesc)
    (ha : findArticle s aid = some a)
    (hres : resolveAuthor s p.author a.author = .ok na)
    (hpr : p.regions = some descs)
    (hjoin : ∀ rid ∈ articleRegionIds s aid, (findRegion s.regions rid).isSome = true) :
    ∃ s' js, updateArticle s aid p = .ok (s', 200, js) ∧
      js.regions.map (fun r => r.id) =
        (articleRegionIds s aid).filter
          (fun r => ((resolveRegions s.regions s.nextRegionId descs).2.2).contains r) ++
        ((resolveRegions s.regions s.nextRegionId descs).2.2).filter
          (fun r => !(articleRegionIds s aid).contains r) := by
  have haid : a.id = aid := find?_beq_id (f := fun b : Article => b.id) ha
  refine ⟨_, _, updateArticle_ok_regions s aid p a na descs ha hres hpr, ?_⟩
  unfold updatedStoreRegions
  apply serialize_setRegions_order
  · simpa [updatedRow] using haid
  · intro rid hrid
    rcases List.mem_append.mp hrid with h | h
    · have hmem := (List.mem_filter.mp h).1
      have hs := hjoin rid hmem
      obtain ⟨ext, hext⟩ := resolveRegions_regions_append s.regions s.nextRegionId descs
      show (findRegion (resolveRegions s.regions s.nextRegionId descs).1 rid).isSome = true
      rw [hext]
      exact find?_append_isSome_left hs
    · have hmem := (List.mem_filter.mp h).1
      exact resolveRegions_ids_sound s.regions s.nextRegionId descs rid hmem

/-- Closed witness for C7: the update of the tests (new US region listed
first in the payload, previously attached UK region second). -/
theorem updateArticle_regions_attachment_order_witness :
    ∃ s' js, updateArticle sampleStore 1
        ⟨"t", some "c", none,
         some [RegionDesc.byFields "US" "United States of America", RegionDesc.byId 2]⟩ =
        .ok (s', 200, js) ∧
      js.regions.map (fun r => r.id) =
        (articleRegionIds sampleStore 1).filter
          (fun r => ((resolveRegions sampleStore.regions sampleStore.nextRegionId
            [RegionDesc.byFields "US" "United States of America",
             RegionDesc.byId 2]).2.2).contains r) ++
        ((resolveRegions sampleStore.regions sampleStore.nextRegionId
            [RegionDesc.byFields "US" "United States of America",
             RegionDesc.byId 2]).2.2).filter
          (fun r => !(articleRegionIds sampleStore 1).contains r) :=
  updateArticle_regions_attachment_order sampleStore 1
    ⟨"t", some "c", none,
     some [RegionDesc.byFields "US" "United States of America", RegionDesc.byId 2]⟩
    ⟨1, "Fake Article 1", "", some 1⟩ (some 1)
    [RegionDesc.byFields "US" "United States of America", RegionDesc.byId 2]
    rfl rfl rfl (by decide)

end Techtest

namespace Techtest

/-- Reconciling against a two-element id set `{rid, nid}` where `rid`
is attached exactly once and `nid` nowhere: the surviving attachment
comes first, the fresh id last, for either ordering of the id set. -/
theorem mixed_ids_reconcile (old ids : List Nat) (rid nid : Nat)
    (hids : ids = [rid, nid] ∨ ids = [nid, rid])
    (hmem : rid ∈ old) (hcount : old.count rid = 1)
    (hfresh : ∀ x ∈ old, x ≠ nid) :
    old.filter (fun r => ids.contains r) ++ ids.filter (fun r => !old.contains r)
      = [rid, nid] := by
  have hnotmem : nid ∉ old := fun hx => hfresh nid hx rfl
  have hleft : old.filter (fun r => ids.contains r) = [rid] := by
    have hcongr : ∀ x ∈ old, (ids.contains x) = (x == rid) := by
      intro x hx
      have hxn : (x == nid) = false := by simp [hfresh x hx]
      rcases hids with h | h <;> subst h <;>
        by_cases hxr : ((x == rid) = true) <;>
        simp [List.contains, List.elem, hxr, hxn]
    rw [List.filter_congr hcongr]
    exact filter_eq_of_count_one hcount
  have hright : ids.filter (fun r => !old.contains r) = [nid] := by
    rcases hids with h | h <;> subst h <;>
      simp [List.filter_cons, contains_iff_mem, hmem, hnotmem]
  rw [hleft, hright]
  rfl

/-- C10 (amended): mixing an `{id}` descriptor that references a Region
currently attached (exactly once) to the Article with a `{code, name}`
descriptor creating a fresh Region lists the already-attached Region
first and the newly created Region last in the response, whichever
order the two descriptors had in the payload. -/
theorem updateArticle_attached_then_new (s : Store) (aid : Nat) (p : ArticlePayload)
    (a : Article) (na : Option Nat) (rid : Nat) (c n : String)
    (ha : findArticle s aid = some a)
    (hres : resolveAuthor s p.author a.author = .ok na)
    (hpr : p.regions = some [RegionDesc.byId rid, RegionDesc.byFields c n] ∨
           p.regions = some [RegionDesc.byFields c n, RegionDesc.byId rid])
    (hrex : (findRegion s.regions rid).isSome = true)
    (hmem : rid ∈ articleRegionIds s aid)
    (hcount : (articleRegionIds s aid).count rid = 1)
    (hfresh : ∀ x ∈ articleRegionIds s aid, x ≠ s.nextRegionId) :
    ∃ s' js, updateArticle s aid p = .ok (s', 200, js) ∧
      js.regions.map (fun r => r.id) = [rid, s.nextRegionId] := by
  have haid : a.id = aid := find?_beq_id (f := fun b : Article => b.id) ha
  have h2 : (findRegion (s.regions ++ [⟨s.nextRegionId, c, n⟩]) rid).isSome = true := by
    obtain ⟨r0, hr0⟩ := Option.isSome_iff_exists.mp hrex
    unfold findRegion at hr0 ⊢
    rw [find?_append_left hr0]
    rfl
  rcases hpr with hpr | hpr
  · have hids : (resolveRegions s.regions s.nextRegionId
        [RegionDesc.byId rid, RegionDesc.byFields c n]).2.2
        = [rid, s.nextRegionId] := by
      simp [resolveRegions, hrex]
    have hrs : (resolveRegions s.regions s.nextRegionId
        [RegionDesc.byId rid, RegionDesc.byFields c n]).1
        = s.regions ++ [⟨s.nextRegionId, c, n⟩] := by
      simp [resolveRegions, hrex]
    refine ⟨_, _, updateArticle_ok_regions s aid p a na
      [RegionDesc.byId rid, RegionDesc.byFields c n] ha hres hpr, ?_⟩
    unfold updatedStoreRegions
    apply Eq.trans (b :=
      (articleRegionIds s aid).filter
        (fun r => ((resolveRegions s.regions s.nextRegionId
          [RegionDesc.byId rid, RegionDesc.byFields c n]).2.2).contains r) ++
      ((resolveRegions s.regions s.nextRegionId
          [RegionDesc.byId rid, RegionDesc.byFields c n]).2.2).filter
        (fun r => !(articleRegionIds s aid).contains r))
    · apply serialize_setRegions_order
      · simpa [updatedRow] using haid
      · intro x hx
        have hxids : x ∈ (resolveRegions s.regions s.nextRegionId
            [RegionDesc.byId rid, RegionDesc.byFields c n]).2.2 := by
          rcases List.mem_append.mp hx with h | h
          · exact contains_iff_mem.mp (List.mem_filter.mp h).2
          · exact (List.mem_filter.mp h).1
        rw [hids] at hxids
        show (findRegion (resolveRegions s.regions s.nextRegionId
          [RegionDesc.byId rid, RegionDesc.byFields c n]).1 x).isSome = true
        rw [hrs]
        rcases List.mem_cons.mp hxids with h | h
        · subst h
          exact h2
        · have hxn : x = s.nextRegionId := by simpa using h
          subst hxn
          apply find?_append_isSome_right
          simp [findRegion]
    · rw [hids]
      exact mixed_ids_reconcile _ _ rid s.nextRegionId (Or.inl rfl) hmem hcount hfresh
  · have hids : (resolveRegions s.regions s.nextRegionId
        [RegionDesc.byFields c n, RegionDesc.byId rid]).2.2
        = [s.nextRegionId, rid] := by
      simp [resolveRegions, h2]
    have hrs : (resolveRegions s.regions s.nextRegionId
        [RegionDesc.byFields c n, RegionDesc.byId rid]).1
        = s.regions ++ [⟨s.nextRegionId, c, n⟩] := by
      simp [resolveRegions, h2]
    refine ⟨_, _, updateArticle_ok_regions s aid p a na
      [RegionDesc.byFields c n, RegionDesc.byId rid] ha hres hpr, ?_⟩
    unfold updatedStoreRegions
    apply Eq.trans (b :=
      (articleRegionIds s aid).filter
        (fun r => ((resolveRegions s.regions s.nextRegionId
          [RegionDesc.byFields c n, RegionDesc.byId rid]).2.2).contains r) ++
      ((resolveRegions s.regions s.nextRegionId
          [RegionDesc.byFields c n, RegionDesc.byId rid]).2.2).filter
        (fun r => !(articleRegionIds s aid).contains r))
    · apply serialize_setRegions_order
      · simpa [updatedRow] using haid
      · intro x hx
        have hxids : x ∈ (resolveRegions s.regions s.nextRegionId
            [RegionDesc.byFields c n, RegionDesc.byId rid]).2.2 := by
          rcases List.mem_append.mp hx with h | h
          · exact contains_iff_mem.mp (List.mem_filter.mp h).2
          · exact (List.mem_filter.mp h).1
        rw [hids] at hxids
        show (findRegion (resolveRegions s.regions s.nextRegionId
          [RegionDesc.byFields c n, RegionDesc.byId rid]).1 x).isSome = true
        rw [hrs]
        rcases List.mem_cons.mp hxids with h | h
        · subst h
          apply find?_append_isSome_right
          simp [findRegion]
        · have hxr : x = rid := by simpa using h
          subst hxr
          exact h2
    · rw [hids]
      exact mixed_ids_reconcile _ _ rid s.nextRegionId (Or.inr rfl) hmem hcount hfresh

/-- Closed witness for the amended C10: the tests' update payload, new
`{code, name}` region listed before the already-attached `{id: 2}`. -/
theorem updateArticle_attached_then_new_witness :
    ∃ s' js, updateArticle sampleStore 1
        ⟨"t", some "c", none,
         some [RegionDesc.byFields "US" "United States of America", RegionDesc.byId 2]⟩ =
        .ok (s', 200, js) ∧
      js.regions.map (fun r => r.id) = [2, sampleStore.nextRegionId] :=
  updateArticle_attached_then_new sampleStore 1
    ⟨"t", some "c", none,
     some [RegionDesc.byFields "US" "United States of America", RegionDesc.byId 2]⟩
    ⟨1, "Fake Article 1", "", some 1⟩ (some 1) 2 "US" "United States of America"
    rfl rfl (Or.inr rfl) rfl (by decide) (by decide) (by decide)

/-- C10 as stated is false: with a payload mixing `{code, name}` (first)
and an `{id}` referencing an existing but unattached Region, the
response lists the newly created Region (id 2) before the pre-existing
lower-id Region (id 1) — attachment order, not ascending id order. -/
theorem mixed_descriptor_order_counterexample :
    (updateArticle unattachedStore 1 mixedPayload).map
        (fun r => r.2.2.regions.map (fun x => x.id)) = .ok [2, 1] ∧
      [2, 1] ≠ [1, 2] := by
  constructor
  · rfl
  · decide

end Techtest
